import Mathlib

set_option maxRecDepth 10000

/-!
Shallow embedding of the duration-estimation subsystem of the AI_planner
task-planning backend: the estimator in backend/app/services/llm.py, the
request/response schemas in backend/app/schemas.py, and the two caller
paths in backend/app/api/v1/tasks.py.

Modelling conventions:
* Python int is modelled by Int (Nat where the source only produces
  non-negative values), Python float by ℚ.  The float operations reaching
  these values are only min, max and literal constants, which these model
  exactly.
* Python str.lower() is modelled by ASCII lowercasing (Char.toLower) and
  Python "kw in s" by substring containment on character lists; Python
  str.split() splits on runs of whitespace and drops empty pieces, so the
  word count is the number of maximal non-whitespace runs.
* The single external model call is modelled by an explicit
  ExternalOutcome argument: "failure" stands for any exception raised
  inside the try block of estimate_duration_with_llm (network/auth error,
  json.loads failing on unparseable content, int()/float() raising on a
  present but uncoercible field), and "success r" for a parsed JSON object
  whose three optional fields were each absent or successfully coerced.
-/

/-- Does the second character list occur as a leading segment of the first?
Used to model Python substring containment. -/
def listStartsWith : List Char → List Char → Bool
  | _, [] => true
  | [], _ :: _ => false
  | h :: hs, n :: ns => h == n && listStartsWith hs ns

/-- Does the character list `needle` occur contiguously anywhere inside the
second argument?  Models Python's `needle in hay` on strings. -/
def listHasSub (needle : List Char) : List Char → Bool
  | [] => listStartsWith [] needle
  | h :: hs => listStartsWith (h :: hs) needle || listHasSub needle hs

/-- Python's substring test `needle in hay`. -/
def strContains (hay needle : String) : Bool :=
  listHasSub needle.data hay.data

/-- Python's `str.lower()` (ASCII lowercasing, which covers every keyword in
the rule table). -/
def pyLower (s : String) : String :=
  ⟨s.data.map Char.toLower⟩

/-- Counts maximal non-whitespace runs; the Bool argument records whether the
previous character was whitespace (or the start of the string). -/
def wordCountAux : Bool → List Char → Nat
  | _, [] => 0
  | prevWs, c :: rest =>
    if c.isWhitespace then wordCountAux true rest
    else (if prevWs then 1 else 0) + wordCountAux false rest

/-- Python's `len(s.split())`: the number of whitespace-separated tokens. -/
def wordCount (s : String) : Nat :=
  wordCountAux true s.data

/-- backend/app/schemas.py, DurationEstimateResponse: the estimator's output
schema.  `reasoning` is always set by the service, so it is a plain String. -/
structure DurationEstimateResponse where
  estimated_duration : Int
  unit : String := "minutes"
  confidence : ℚ
  reasoning : String
deriving DecidableEq

/-- backend/app/services/llm.py, the `patterns` table of
estimate_duration_heuristic: ordered (keyword list, base minutes) rules. -/
def patterns : List (List String × Nat) := [
  (["meeting", "call", "standup", "sync", "interview"], 30),
  (["review", "check", "approve", "feedback"], 20),
  (["email", "reply", "respond", "message"], 15),
  (["quick", "brief", "short", "simple"], 10),
  (["write", "draft", "document", "report", "proposal"], 60),
  (["research", "investigate", "analyze", "explore"], 90),
  (["design", "create", "build", "develop", "implement"], 120),
  (["deep", "thorough", "comprehensive", "detailed"], 90),
  (["workout", "gym", "exercise", "run", "yoga"], 45),
  (["lunch", "dinner", "breakfast", "break"], 30),
  (["learn", "study", "course", "training", "tutorial"], 60),
  (["plan", "schedule", "organize", "prepare"], 25),
  (["fix", "debug", "troubleshoot", "resolve"], 45),
  (["clean", "tidy", "organize", "declutter"], 30),
  (["read", "book", "article", "paper"], 30),
  (["test", "testing", "qa", "verify"], 40),
  (["deploy", "release", "publish", "launch"], 30)
]

/-- The rule table exactly as listed in §4.1 of the spec, kept as a second
definition so the code table can be compared against it. -/
def specPatterns : List (List String × Nat) := [
  (["meeting", "call", "standup", "sync", "interview"], 30),
  (["review", "check", "approve", "feedback"], 20),
  (["email", "reply", "respond", "message"], 15),
  (["quick", "brief", "short", "simple"], 10),
  (["write", "draft", "document", "report", "proposal"], 60),
  (["research", "investigate", "analyze", "explore"], 90),
  (["design", "create", "build", "develop", "implement"], 120),
  (["deep", "thorough", "comprehensive", "detailed"], 90),
  (["workout", "gym", "exercise", "run", "yoga"], 45),
  (["lunch", "dinner", "breakfast", "break"], 30),
  (["learn", "study", "course", "training", "tutorial"], 60),
  (["plan", "schedule", "organize", "prepare"], 25),
  (["fix", "debug", "troubleshoot", "resolve"], 45),
  (["clean", "tidy", "organize", "declutter"], 30),
  (["read", "book", "article", "paper"], 30),
  (["test", "testing", "qa", "verify"], 40),
  (["deploy", "release", "publish", "launch"], 30)
]

/-- `any(kw in description_lower for kw in keywords)` for one rule. -/
def ruleMatches (description_lower : String) (p : List String × Nat) : Bool :=
  p.1.any (fun kw => strContains description_lower kw)

/-- The `for keywords, duration in patterns` loop with early return: the
first rule whose keyword list matches the lowered description. -/
def firstMatch (description_lower : String) : Option (List String × Nat) :=
  patterns.find? (ruleMatches description_lower)

/-- The fixed reasoning string of the keyword branch. -/
def kwReasoning : String := "Estimated based on task keywords (heuristic method)"

/-- The fixed reasoning string of the no-keyword branch. -/
def lenReasoning : String := "General estimate based on task description length"

/-- backend/app/services/llm.py, estimate_duration_heuristic. -/
def estimate_duration_heuristic (task_description : String) : DurationEstimateResponse :=
  let description_lower := pyLower task_description
  match firstMatch description_lower with
  | some (_, duration) =>
    let word_count := wordCount task_description
    let variance := min (word_count * 2) 15
    let final_duration := duration + variance
    { estimated_duration := (final_duration : Int)
      confidence := mkRat 6 10
      reasoning := kwReasoning }
  | none =>
    let word_count := wordCount task_description
    let base_duration := max 15 (min (word_count * 8) 90)
    { estimated_duration := (base_duration : Int)
      confidence := mkRat 5 10
      reasoning := lenReasoning }

/-- The JSON object parsed from the model's reply, field by field: `none`
means the key was absent from the object (in which case the source's
`result.get(key, default)` supplies the default).  A present value that
`int()`/`float()` cannot coerce raises, which is an `ExternalOutcome.failure`
instead. -/
structure ModelResponse where
  estimated_duration : Option Int
  confidence : Option ℚ
  reasoning : Option String

/-- Outcome of the single external chat-completion call: `failure` is any
exception raised inside the try block (network, auth, rate limit,
unparseable JSON, uncoercible field); `success` carries the parsed fields. -/
inductive ExternalOutcome where
  | failure
  | success (parsed : ModelResponse)

/-- Python truthiness of `settings.OPENAI_API_KEY` (`Optional[str]`, default
`None`): `None` and the empty string are falsy. -/
def hasApiKey : Option String → Bool
  | none => false
  | some s => !s.isEmpty

/-- backend/app/services/llm.py, estimate_duration_with_llm.  The credential
and the outcome of the (single, unretried) external call are explicit
arguments; the source reads the credential from global settings and performs
the call inside a try block whose except branch returns the heuristic. -/
def estimate_duration_with_llm (apiKey : Option String) (outcome : ExternalOutcome)
    (task_description : String) : DurationEstimateResponse :=
  if !(hasApiKey apiKey) then
    estimate_duration_heuristic task_description
  else
    match outcome with
    | .failure => estimate_duration_heuristic task_description
    | .success result =>
      let duration : Int := max 5 (min 480 (result.estimated_duration.getD 30))
      let confidence : ℚ := max 0 (min 1 (result.confidence.getD (mkRat 7 10)))
      { estimated_duration := duration
        confidence := confidence
        reasoning := result.reasoning.getD "" }

/-- backend/app/schemas.py, TaskCreate (the fields carrying validation
constraints; `description` deliberately mirrors the source in having none). -/
structure TaskCreate where
  task_name : String
  description : Option String := none
  category : String := "personal"
  priority : String := "medium"
  manual_duration : Option Int := none

/-- The Pydantic validation of TaskCreate: task_name 1..500 characters,
category and priority from fixed vocabularies, manual_duration in [5, 480]
when given.  `description` is `Optional[str] = None` with no constraint. -/
def TaskCreateValid (t : TaskCreate) : Prop :=
  1 ≤ t.task_name.length ∧ t.task_name.length ≤ 500 ∧
  (t.category = "work" ∨ t.category = "personal" ∨ t.category = "health") ∧
  (t.priority = "low" ∨ t.priority = "medium" ∨ t.priority = "high") ∧
  (match t.manual_duration with
   | none => True
   | some d => 5 ≤ d ∧ d ≤ 480)

/-- backend/app/schemas.py, DurationEstimateRequest: the direct endpoint's
validation, task_description 1..1000 characters. -/
def DurationEstimateRequestValid (task_description : String) : Prop :=
  1 ≤ task_description.length ∧ task_description.length ≤ 1000

/-- backend/app/api/v1/tasks.py, create_task: the string handed to the
estimator is the task name, extended with " - " plus the description when
the description is truthy (a non-empty string). -/
def description_for_estimate (t : TaskCreate) : String :=
  match t.description with
  | some d => if d.isEmpty then t.task_name else t.task_name ++ " - " ++ d
  | none => t.task_name

/-- A TaskCreate payload that passes validation while its description is
1001 characters long. -/
def bigTask : TaskCreate :=
  { task_name := "a", description := some ⟨List.replicate 1001 'b'⟩ }

lemma listStartsWith_iff (l n : List Char) :
    listStartsWith l n = true ↔ ∃ t, l = n ++ t := by
  induction n generalizing l with
  | nil => simp [listStartsWith]
  | cons c cs ih =>
    cases l with
    | nil => simp [listStartsWith]
    | cons a as =>
      simp [listStartsWith, ih, List.cons_append, List.cons.injEq, exists_and_left]

lemma listHasSub_iff (n h : List Char) :
    listHasSub n h = true ↔ ∃ p t, h = p ++ n ++ t := by
  induction h with
  | nil =>
    simp only [listHasSub, listStartsWith_iff]
    constructor
    · rintro ⟨t, ht⟩
      exact ⟨[], t, by simpa using ht⟩
    · rintro ⟨p, t, ht⟩
      rw [eq_comm, List.append_eq_nil, List.append_eq_nil] at ht
      exact ⟨t, by simp [ht.1.2, ht.2]⟩
  | cons c hs ih =>
    simp only [listHasSub, Bool.or_eq_true, listStartsWith_iff, ih]
    constructor
    · rintro (⟨t, ht⟩ | ⟨p, t, ht⟩)
      · exact ⟨[], t, by simpa using ht⟩
      · exact ⟨c :: p, t, by simp [ht]⟩
    · rintro ⟨p, t, ht⟩
      cases p with
      | nil => exact Or.inl ⟨t, by simpa using ht⟩
      | cons x ps =>
        simp only [List.cons_append, List.cons.injEq] at ht
        obtain ⟨rfl, ht2⟩ := ht
        exact Or.inr ⟨ps, t, ht2⟩

lemma strContains_trans {a b c : String} (h1 : strContains a b = true)
    (h2 : strContains b c = true) : strContains a c = true := by
  unfold strContains at h1 h2 ⊢
  rw [listHasSub_iff] at h1 h2 ⊢
  obtain ⟨p, t, hpt⟩ := h1
  obtain ⟨p2, t2, hpt2⟩ := h2
  exact ⟨p ++ p2, t2 ++ t, by rw [hpt, hpt2]; simp [List.append_assoc]⟩

lemma find?_eq_get_of_first {α : Type} (p : α → Bool) (l : List α) :
    ∀ (i : Nat) (hi : i < l.length),
      p (l.get ⟨i, hi⟩) = true →
      (∀ j (hj : j < i), p (l.get ⟨j, Nat.lt_trans hj hi⟩) = false) →
      l.find? p = some (l.get ⟨i, hi⟩) := by
  induction l with
  | nil => intro i hi _ _; exact absurd hi (Nat.not_lt_zero i)
  | cons a t ih =>
    intro i hi hp hmin
    cases i with
    | zero => exact List.find?_cons_of_pos _ hp
    | succ n =>
      have ha : p a = false := hmin 0 (Nat.succ_pos n)
      rw [List.find?_cons_of_neg _ (by simp [ha])]
      exact ih n (Nat.lt_of_succ_lt_succ hi) hp
        (fun j hj => hmin (j + 1) (Nat.succ_lt_succ hj))

lemma find?_append_of_none {α : Type} (p : α → Bool) (l₁ l₂ : List α)
    (h : l₁.find? p = none) : (l₁ ++ l₂).find? p = l₂.find? p := by
  rw [List.find?_append, h]; rfl

lemma pattern_duration_bounds : ∀ q ∈ patterns, 10 ≤ q.2 ∧ q.2 ≤ 120 := by decide

lemma heuristic_of_firstMatch_some (d : String) (kws : List String) (dur : Nat)
    (h : firstMatch (pyLower d) = some (kws, dur)) :
    estimate_duration_heuristic d =
      { estimated_duration := ((dur + min (wordCount d * 2) 15 : Nat) : Int),
        confidence := mkRat 6 10, reasoning := kwReasoning } := by
  simp only [estimate_duration_heuristic, h]

lemma heuristic_of_firstMatch_none (d : String)
    (h : firstMatch (pyLower d) = none) :
    estimate_duration_heuristic d =
      { estimated_duration := ((max 15 (min (wordCount d * 8) 90) : Nat) : Int),
        confidence := mkRat 5 10, reasoning := lenReasoning } := by
  simp only [estimate_duration_heuristic, h]

lemma heuristic_in_range (d : String) :
    5 ≤ (estimate_duration_heuristic d).estimated_duration ∧
    (estimate_duration_heuristic d).estimated_duration ≤ 480 ∧
    0 ≤ (estimate_duration_heuristic d).confidence ∧
    (estimate_duration_heuristic d).confidence ≤ 1 := by
  cases h : firstMatch (pyLower d) with
  | some q =>
    obtain ⟨kws, dur⟩ := q
    have hb := pattern_duration_bounds _ (List.mem_of_find?_eq_some h)
    rw [heuristic_of_firstMatch_some d kws dur h]
    refine ⟨?_, ?_, ?_, ?_⟩
    · show (5 : Int) ≤ ((dur + min (wordCount d * 2) 15 : Nat) : Int)
      have := hb.1; omega
    · show ((dur + min (wordCount d * 2) 15 : Nat) : Int) ≤ 480
      have := hb.2; omega
    · show (0 : ℚ) ≤ mkRat 6 10; decide
    · show (mkRat 6 10 : ℚ) ≤ 1; decide
  | none =>
    rw [heuristic_of_firstMatch_none d h]
    refine ⟨?_, ?_, ?_, ?_⟩
    · show (5 : Int) ≤ ((max 15 (min (wordCount d * 8) 90) : Nat) : Int)
      omega
    · show ((max 15 (min (wordCount d * 8) 90) : Nat) : Int) ≤ 480
      omega
    · show (0 : ℚ) ≤ mkRat 5 10; decide
    · show (mkRat 5 10 : ℚ) ≤ 1; decide

lemma llm_nokey_eq (apiKey : Option String) (h : hasApiKey apiKey = false)
    (outcome : ExternalOutcome) (d : String) :
    estimate_duration_with_llm apiKey outcome d = estimate_duration_heuristic d := by
  simp [estimate_duration_with_llm, h]

lemma llm_failure_eq (apiKey : Option String) (d : String) :
    estimate_duration_with_llm apiKey .failure d = estimate_duration_heuristic d := by
  unfold estimate_duration_with_llm
  cases hasApiKey apiKey <;> simp

lemma llm_success_eq (apiKey : Option String) (h : hasApiKey apiKey = true)
    (r : ModelResponse) (d : String) :
    estimate_duration_with_llm apiKey (.success r) d =
      { estimated_duration := max 5 (min 480 (r.estimated_duration.getD 30)),
        confidence := max 0 (min 1 (r.confidence.getD (mkRat 7 10))),
        reasoning := r.reasoning.getD "" } := by
  simp [estimate_duration_with_llm, h]

/-- C1: For every task-description string, the estimate returned by the
estimator — whether produced by the model-backed path, by clamping a model
response, or by the heuristic strategy — has estimated_duration in the
closed interval [5, 480] and confidence in the closed interval [0, 1]. -/
theorem estimator_output_in_range (apiKey : Option String)
    (outcome : ExternalOutcome) (d : String) :
    5 ≤ (estimate_duration_with_llm apiKey outcome d).estimated_duration ∧
    (estimate_duration_with_llm apiKey outcome d).estimated_duration ≤ 480 ∧
    0 ≤ (estimate_duration_with_llm apiKey outcome d).confidence ∧
    (estimate_duration_with_llm apiKey outcome d).confidence ≤ 1 := by
  cases outcome with
  | failure =>
    rw [llm_failure_eq apiKey d]
    exact heuristic_in_range d
  | success r =>
    cases hk : hasApiKey apiKey with
    | false =>
      rw [llm_nokey_eq apiKey hk _ d]
      exact heuristic_in_range d
    | true =>
      rw [llm_success_eq apiKey hk r d]
      exact ⟨le_max_left _ _, max_le (by norm_num) (min_le_left _ _),
        le_max_left _ _, max_le (by norm_num) (min_le_left _ _)⟩

/-- C2: The estimator never raises: whenever the external call raises any
exception or returns unparseable content (the failure outcome), the returned
estimate equals exactly the triple that the heuristic strategy alone
produces for the same input, with no retry. -/
theorem estimator_failure_degrades_to_heuristic (apiKey : Option String) (d : String) :
    estimate_duration_with_llm apiKey .failure d = estimate_duration_heuristic d :=
  llm_failure_eq apiKey d

/-- C3: When the external-model credential is absent (None or empty, i.e.
falsy), the estimator's output is identical to the heuristic strategy's
output for every input, independently of the modelled external outcome —
in particular no network call is consulted. -/
theorem estimator_no_key_uses_heuristic (apiKey : Option String)
    (outcome : ExternalOutcome) (d : String) (h : hasApiKey apiKey = false) :
    estimate_duration_with_llm apiKey outcome d = estimate_duration_heuristic d :=
  llm_nokey_eq apiKey h outcome d

theorem estimator_no_key_uses_heuristic_witness :
    estimate_duration_with_llm none
      (.success ⟨some 1000, some (mkRat 9 10), some "model text"⟩)
      "design a landing page" =
    estimate_duration_heuristic "design a landing page" :=
  estimator_no_key_uses_heuristic none _ _ rfl

/-- C4: For every description matching at least one keyword rule, the
heuristic returns base of the first matching rule plus min(word_count × 2,
15), confidence 0.6 and the fixed keyword reasoning string; the one-word
description "call" yields 32 minutes and any ten-word description
containing "call" yields 45 minutes. -/
theorem heuristic_keyword_duration_formula :
    (∀ d kws dur, firstMatch (pyLower d) = some (kws, dur) →
      estimate_duration_heuristic d =
        { estimated_duration := ((dur + min (wordCount d * 2) 15 : Nat) : Int),
          confidence := mkRat 6 10, reasoning := kwReasoning }) ∧
    estimate_duration_heuristic "call" =
      { estimated_duration := 32, confidence := mkRat 6 10, reasoning := kwReasoning } ∧
    (∀ d, strContains (pyLower d) "call" = true → wordCount d = 10 →
      estimate_duration_heuristic d =
        { estimated_duration := 45, confidence := mkRat 6 10, reasoning := kwReasoning }) := by
  refine ⟨fun d kws dur h => heuristic_of_firstMatch_some d kws dur h, by decide, ?_⟩
  intro d hc hw
  have hm : firstMatch (pyLower d) =
      some (["meeting", "call", "standup", "sync", "interview"], 30) := by
    unfold firstMatch patterns
    apply List.find?_cons_of_pos
    simp [ruleMatches, hc]
  rw [heuristic_of_firstMatch_some d _ _ hm, hw]
  decide

theorem heuristic_keyword_duration_formula_witness :
    estimate_duration_heuristic "call a b c d e f g h i" =
      { estimated_duration := 45, confidence := mkRat 6 10, reasoning := kwReasoning } :=
  heuristic_keyword_duration_formula.2.2 "call a b c d e f g h i" (by decide) (by decide)

/-- C5: For every description matching no keyword rule, the heuristic
returns clamp(word_count × 8, 15, 90) with confidence 0.5 and the fixed
length-based reasoning string; a 5-word non-matching description yields 40
minutes and a 50-word non-matching one yields 90 minutes, word count being
the number of whitespace-separated tokens. -/
theorem heuristic_no_keyword_duration_formula :
    (∀ d, firstMatch (pyLower d) = none →
      estimate_duration_heuristic d =
        { estimated_duration := ((max 15 (min (wordCount d * 8) 90) : Nat) : Int),
          confidence := mkRat 5 10, reasoning := lenReasoning }) ∧
    (∀ d, firstMatch (pyLower d) = none → wordCount d = 5 →
      estimate_duration_heuristic d =
        { estimated_duration := 40, confidence := mkRat 5 10, reasoning := lenReasoning }) ∧
    (∀ d, firstMatch (pyLower d) = none → wordCount d = 50 →
      estimate_duration_heuristic d =
        { estimated_duration := 90, confidence := mkRat 5 10, reasoning := lenReasoning }) := by
  refine ⟨fun d h => heuristic_of_firstMatch_none d h, ?_, ?_⟩
  · intro d h hw
    rw [heuristic_of_firstMatch_none d h, hw]
    decide
  · intro d h hw
    rw [heuristic_of_firstMatch_none d h, hw]
    decide

theorem heuristic_no_keyword_duration_formula_witness :
    estimate_duration_heuristic "zq zq zq zq zq" =
      { estimated_duration := 40, confidence := mkRat 5 10, reasoning := lenReasoning } :=
  heuristic_no_keyword_duration_formula.2.1 "zq zq zq zq zq" (by decide) (by decide)

/-- C6: The heuristic evaluates its 17 (keyword-set, base-duration) rules in
exactly the fixed priority order listed in the spec, first match wins: if
rule i matches and no rule before it does, the result uses rule i's base
duration; "meeting to research competitors" resolves to the 30-minute first
rule, not the 90-minute research rule. -/
theorem heuristic_rule_order_first_match_wins :
    patterns.length = 17 ∧
    patterns = specPatterns ∧
    (∀ d (i : Nat) (hi : i < patterns.length),
      ruleMatches (pyLower d) (patterns.get ⟨i, hi⟩) = true →
      (∀ j (hj : j < i),
        ruleMatches (pyLower d) (patterns.get ⟨j, Nat.lt_trans hj hi⟩) = false) →
      estimate_duration_heuristic d =
        { estimated_duration :=
            (((patterns.get ⟨i, hi⟩).2 + min (wordCount d * 2) 15 : Nat) : Int),
          confidence := mkRat 6 10, reasoning := kwReasoning }) ∧
    firstMatch (pyLower "meeting to research competitors") =
      some (["meeting", "call", "standup", "sync", "interview"], 30) := by
  refine ⟨rfl, rfl, ?_, by decide⟩
  intro d i hi hp hmin
  have hfm : firstMatch (pyLower d) = some (patterns.get ⟨i, hi⟩) :=
    find?_eq_get_of_first _ patterns i hi hp hmin
  exact heuristic_of_firstMatch_some d _ _ hfm

theorem heuristic_rule_order_first_match_wins_witness :
    estimate_duration_heuristic "meeting to research competitors" =
      { estimated_duration := 38, confidence := mkRat 6 10, reasoning := kwReasoning } :=
  (heuristic_rule_order_first_match_wins.2.2.1 "meeting to research competitors" 0
    (by decide) (by decide) (fun j hj => absurd hj (Nat.not_lt_zero j))).trans (by decide)

/-- C7: On the model-backed path an out-of-range value is clamped, not
rejected: a parsed estimated_duration of 1000 yields 480, a confidence of
1.5 yields 1.0; a present reasoning field is passed through verbatim and an
absent one yields the empty string. -/
theorem model_path_clamps_and_reasoning (apiKey : Option String)
    (h : hasApiKey apiKey = true) (d : String) :
    (∀ conf reas,
      (estimate_duration_with_llm apiKey
        (.success ⟨some 1000, conf, reas⟩) d).estimated_duration = 480) ∧
    (∀ dur reas,
      (estimate_duration_with_llm apiKey
        (.success ⟨dur, some (mkRat 15 10), reas⟩) d).confidence = 1) ∧
    (∀ r s, r.reasoning = some s →
      (estimate_duration_with_llm apiKey (.success r) d).reasoning = s) ∧
    (∀ r, r.reasoning = none →
      (estimate_duration_with_llm apiKey (.success r) d).reasoning = "") := by
  refine ⟨?_, ?_, ?_, ?_⟩
  · intro conf reas
    rw [llm_success_eq apiKey h _ d]
    show max 5 (min 480 ((some (1000 : Int)).getD 30)) = 480
    decide
  · intro dur reas
    rw [llm_success_eq apiKey h _ d]
    show max 0 (min 1 ((some (mkRat 15 10)).getD (mkRat 7 10))) = 1
    decide
  · intro r s hr
    rw [llm_success_eq apiKey h r d]
    show r.reasoning.getD "" = s
    rw [hr]
    rfl
  · intro r hr
    rw [llm_success_eq apiKey h r d]
    show r.reasoning.getD "" = ""
    rw [hr]
    rfl

theorem model_path_clamps_and_reasoning_witness :
    (estimate_duration_with_llm (some "sk-key")
      (.success ⟨some 1000, some (mkRat 9 10), some "m"⟩) "x").estimated_duration = 480 :=
  (model_path_clamps_and_reasoning (some "sk-key") (by decide) "x").1
    (some (mkRat 9 10)) (some "m")

/-- C8 counterexample: with a credential present, a parsed response missing
both the estimated_duration and confidence keys is NOT treated as an
external-call failure: for the description "call" the estimator returns the
default-filled estimate (30 minutes, confidence 0.7), which differs from the
heuristic's (32 minutes, confidence 0.6). -/
theorem missing_fields_not_heuristic_counterexample :
    estimate_duration_with_llm (some "sk-key") (.success ⟨none, none, none⟩) "call" ≠
      estimate_duration_heuristic "call" := by decide

/-- C8 amended: a parsed response with missing fields enters the clamping
path with defaults (30 minutes for estimated_duration, 0.7 for confidence,
empty string for reasoning) rather than degraded mode; only an exception in
the external call (network error, unparseable content, a present field that
cannot be coerced) makes the estimator return the heuristic's result. -/
theorem model_response_missing_fields_use_defaults (apiKey : Option String)
    (h : hasApiKey apiKey = true) (d : String) :
    (∀ r, estimate_duration_with_llm apiKey (.success r) d =
      { estimated_duration := max 5 (min 480 (r.estimated_duration.getD 30)),
        confidence := max 0 (min 1 (r.confidence.getD (mkRat 7 10))),
        reasoning := r.reasoning.getD "" }) ∧
    estimate_duration_with_llm apiKey .failure d = estimate_duration_heuristic d :=
  ⟨fun r => llm_success_eq apiKey h r d, llm_failure_eq apiKey d⟩

theorem model_response_missing_fields_use_defaults_witness :
    estimate_duration_with_llm (some "sk-key2") (.success ⟨none, none, none⟩) "call" =
      { estimated_duration := 30, confidence := mkRat 7 10, reasoning := "" } :=
  ((model_response_missing_fields_use_defaults (some "sk-key2") (by decide) "call").1
    ⟨none, none, none⟩).trans (by decide)

/-- C9 counterexample: bigTask (task_name "a", description of 1001
characters) passes TaskCreate validation, yet the string the task-creation
flow hands to the estimator is 1005 characters long, violating the claimed
1000-character bound on every estimator invocation. -/
theorem task_creation_long_description_counterexample :
    TaskCreateValid bigTask ∧
    ¬ (description_for_estimate bigTask).length ≤ 1000 := by
  constructor
  · refine ⟨by decide, by decide, Or.inr (Or.inl rfl), Or.inr (Or.inl rfl), ?_⟩
    trivial
  · decide

/-- C9 amended: the direct estimate-duration endpoint enforces both bounds
(non-empty, at most 1000 characters); the task-creation flow guarantees the
estimator a non-empty description (task_name is 1..500 characters) but not
the 1000-character upper bound, since the optional task description is
unbounded. -/
theorem estimator_input_validation_amended :
    (∀ s, DurationEstimateRequestValid s → 1 ≤ s.length ∧ s.length ≤ 1000) ∧
    (∀ t, TaskCreateValid t → 1 ≤ (description_for_estimate t).length) := by
  refine ⟨fun s h => h, ?_⟩
  intro t ht
  have h1 := ht.1
  unfold description_for_estimate
  cases hd : t.description with
  | none => exact h1
  | some d =>
    cases he : d.isEmpty with
    | true => simpa [he] using h1
    | false =>
      simp only [he, Bool.false_eq_true, if_false, String.length_append]
      omega

theorem estimator_input_validation_amended_witness :
    1 ≤ String.length "call" ∧ String.length "call" ≤ 1000 :=
  estimator_input_validation_amended.1 "call" ⟨by decide, by decide⟩

/-- C10: keyword matching is substring containment, not whole-word matching:
any description whose lowered text contains "brunch" (which contains "run")
and matches no keyword of the eight earlier rules fires the
workout/gym/exercise/run/yoga 45-minute rule. -/
theorem substring_matching_brunch (d : String)
    (hb : strContains (pyLower d) "brunch" = true)
    (he : ∀ q ∈ patterns.take 8, ruleMatches (pyLower d) q = false) :
    estimate_duration_heuristic d =
      { estimated_duration := ((45 + min (wordCount d * 2) 15 : Nat) : Int),
        confidence := mkRat 6 10, reasoning := kwReasoning } := by
  have hrun : strContains (pyLower d) "run" = true :=
    strContains_trans hb (by decide)
  have hm : firstMatch (pyLower d) =
      some (["workout", "gym", "exercise", "run", "yoga"], 45) := by
    have hsplit : patterns = patterns.take 8 ++ patterns.drop 8 :=
      (List.take_append_drop 8 patterns).symm
    unfold firstMatch
    rw [hsplit, find?_append_of_none _ _ _
      (List.find?_eq_none.mpr (fun x hx => by simp [he x hx]))]
    show List.find? _ ((["workout", "gym", "exercise", "run", "yoga"], 45) :: _) = _
    apply List.find?_cons_of_pos
    simp [ruleMatches, hrun]
  exact heuristic_of_firstMatch_some d _ _ hm

theorem substring_matching_brunch_witness :
    estimate_duration_heuristic "brunch" =
      { estimated_duration := 47, confidence := mkRat 6 10, reasoning := kwReasoning } :=
  (substring_matching_brunch "brunch" (by decide) (by decide)).trans (by decide)
